import Mathlib

/-!
# vock audio bridge (`src/audio.cc`)

A shallow embedding of `vock::audio::Audio`: the session object that couples
two CoreAudio units (capture and render) to a JavaScript consumer through two
ring buffers, one mutex per ring buffer and one libuv async notifier.

The class `RingBuffer` is declared in a header that is not part of `src/`;
its operations are modelled from the documented contract.  Every member
function of `Audio` is translated from `audio.cc` statement by statement.
Calls that leave the program (CoreAudio, libuv, the JavaScript engine) appear
as explicit outcomes supplied by the caller of the model and as events of a
trace.
-/

/-- One `char` of audio data. -/
abbrev Byte := Fin 256

/-! ## Raw memory -/

/-- The effect of `memcpy(mem + off, src, src.length)` on a block of memory
that is at least `off + src.length` bytes long. -/
def memWrite (mem : List Byte) (off : Nat) (src : List Byte) : List Byte :=
  mem.take off ++ src ++ mem.drop (off + src.length)

/-- The effect of `memset(mem + off, 0, n)`. -/
def memZero (mem : List Byte) (off n : Nat) : List Byte :=
  memWrite mem off (List.replicate n 0)

/-! ## RingBuffer -/

/-- Modelled from the spec: the class `RingBuffer` (its header is absent from
`src/`).  Backing storage of fixed capacity, a read cursor `R` and a write
cursor `W`, both monotonically increasing logical offsets; the physical
position of logical offset `k` is `k % capacity`. -/
structure RingBuffer where
  capacity : Nat
  storage : List Byte
  R : Nat
  W : Nat
deriving DecidableEq, Repr

/-- Modelled from the spec: `n` bytes of wrapped storage read from logical
offset `off` forward (a request spanning the wrap boundary continues at
physical position 0). -/
def readAt (storage : List Byte) (C : Nat) : Nat → Nat → List Byte
  | _, 0 => []
  | off, n + 1 => storage.getD (off % C) 0 :: readAt storage C (off + 1) n

/-- Modelled from the spec: bytes stored into wrapped storage from logical
offset `off` forward. -/
def writeAt (storage : List Byte) (C : Nat) : Nat → List Byte → List Byte
  | _, [] => storage
  | off, b :: bs => writeAt (storage.set (off % C) b) C (off + 1) bs

namespace RingBuffer

/-- Modelled from the spec: the constructor `RingBuffer(size)`; storage is
allocated once, the buffer starts empty. -/
def create (size : Nat) : RingBuffer :=
  { capacity := size, storage := List.replicate size 0, R := 0, W := 0 }

/-- Modelled from the spec: `size() -> used`, with `used = W - R`. -/
def Size (rb : RingBuffer) : Nat := rb.W - rb.R

/-- Modelled from the spec: `produce(n)` reserves `n` bytes at the write
cursor, advances `W` by `n` and returns the reserved region (here: its
logical start offset).  There is no bound check. -/
def Produce (rb : RingBuffer) (n : Nat) : RingBuffer × Nat :=
  ({ rb with W := rb.W + n }, rb.W)

/-- Modelled from the spec: the caller of `produce` filling the region it
was handed with `src` (`memcpy(data, src, n)`, or the hardware writing
captured samples); the region starts at a logical offset and wraps with the
storage. -/
def store (rb : RingBuffer) (region : Nat) (src : List Byte) : RingBuffer :=
  { rb with storage := writeAt rb.storage rb.capacity region src }

/-- Modelled from the spec: `fill(dest, max)` copies up to `max` bytes from
`R` forward into `dest`, advances `R` by that amount and returns the count
(less than `max` when fewer bytes are in use).  The result is the buffer,
the destination memory and the count. -/
def Fill (rb : RingBuffer) (dest : List Byte) (max : Nat) :
    RingBuffer × List Byte × Nat :=
  let n := min max rb.Size
  ({ rb with R := rb.R + n }, memWrite dest 0 (readAt rb.storage rb.capacity rb.R n), n)

/-- Modelled from the spec: `flush(dest)` copies all bytes in use into `dest`
and resets the buffer to empty (`R = W`). -/
def Flush (rb : RingBuffer) (dest : List Byte) : RingBuffer × List Byte × Nat :=
  ({ rb with R := rb.W },
   memWrite dest 0 (readAt rb.storage rb.capacity rb.R rb.Size), rb.Size)

/-- Modelled from the spec: the occupied region in FIFO order, logical
offsets `R .. W`. -/
def contents (rb : RingBuffer) : List Byte :=
  readAt rb.storage rb.capacity rb.R rb.Size

/-- Modelled from the spec: the invariant of the contract, storage of
exactly `capacity` bytes and `0 <= used <= capacity`. -/
def WF (rb : RingBuffer) : Prop :=
  rb.storage.length = rb.capacity ∧ rb.R ≤ rb.W ∧ rb.W - rb.R ≤ rb.capacity

instance (rb : RingBuffer) : Decidable rb.WF := by
  unfold WF; infer_instance

end RingBuffer

/-! ## The session object and its environment -/

/-- `OSStatus`; zero is `noErr`. -/
abbrev OSStatus := Int

/-- A handle to an opened `AudioUnit` instance; `NULL` is `none` of
`Option AudioUnit`. -/
abbrev AudioUnit := Nat

/-- The capture side (`in_*` members) or the render side (`out_*` members). -/
inductive Side
  | input
  | output
deriving DecidableEq, Repr

/-- The members of `AudioStreamBasicDescription` that `audio.cc` reads
(`mSampleRate`, a double only handed on to JavaScript, is left out). -/
structure AudioStreamBasicDescription where
  mBytesPerFrame : Nat
  mChannelsPerFrame : Nat
deriving DecidableEq, Repr

/-- The one-element `AudioBufferList` kept in `blist_`.  `mData` points
into `in_buffer_`: it is the region handed out by `Produce`. -/
structure AudioBufferList where
  mNumberBuffers : Nat
  mNumberChannels : Nat
  mData : Option Nat
  mDataByteSize : Nat
deriving DecidableEq, Repr

/-- The buffer descriptor `data->mBuffers[0]` the render callback receives:
hardware-owned destination memory and the requested byte size. -/
structure AudioBuffer where
  mData : List Byte
  mDataByteSize : Nat
deriving DecidableEq, Repr

/-- The members of class `Audio`, with the state of the collaborators they
stand for: whether each hardware unit is running, whether the async handle
is referenced by the loop and has a wake-up pending, whether each mutex is
held, and the `refs_` counter of `node::ObjectWrap`. -/
structure Audio where
  in_unit_ : Option AudioUnit
  out_unit_ : Option AudioUnit
  in_buffer_ : RingBuffer
  out_buffer_ : RingBuffer
  desc_ : AudioStreamBasicDescription
  in_async_ref : Bool
  in_async_pending : Bool
  in_mutex_ : Bool
  out_mutex_ : Bool
  blist_ : AudioBufferList
  refs_ : Nat
  in_running : Bool
  out_running : Bool
deriving DecidableEq, Repr

/-- JavaScript values as far as `audio.cc` tells them apart. -/
inductive JsValue
  | Null
  | Undefined
  | This
  | Buffer (data : List Byte)
  | Other
deriving DecidableEq, Repr

/-- Calls that leave `audio.cc`, in the order they happen. -/
inductive Event
  | uv_mutex_lock (m : Side)
  | uv_mutex_unlock (m : Side)
  | Produce (b : Side) (n : Nat)
  | Fill (b : Side) (max written : Nat)
  | Flush (b : Side) (n : Nat)
  | memcpy (n : Nat)
  | memset (off n : Nat)
  | AudioUnitRender (frames : Nat) (st : OSStatus)
  | uv_async_send
  | ondata (block : List Byte)
  | AudioOutputUnitStart (u : Side) (st : OSStatus)
  | AudioOutputUnitStop (u : Side) (st : OSStatus)
  | uv_ref
  | uv_unref
  | Ref
  | Unref
  | ThrowException (msg : String)
deriving DecidableEq, Repr

/-- Why a call does not return: it waits forever on a mutex that is never
released, or the process is terminated (`abort()`, a failed `assert`). -/
inductive Halt
  | blocked
  | aborted
deriving DecidableEq, Repr

/-- What a native function works on: the session object, the exception
scheduled on the JavaScript engine (if any) and the trace of outside calls. -/
structure World where
  a : Audio
  exception : Option String
  trace : List Event
deriving DecidableEq, Repr

/-- A native function: it returns a value and a new world, or never
returns. -/
abbrev M := StateT World (Except Halt)

/-- Record an outside call. -/
def emit (e : Event) : M Unit :=
  fun w => .ok ((), { w with trace := w.trace ++ [e] })

/-- Read the session object (`a->...`). -/
def getAudio : M Audio :=
  fun w => .ok (w.a, w)

/-- Update members of the session object. -/
def setAudio (f : Audio → Audio) : M Unit :=
  fun w => .ok ((), { w with a := f w.a })

/-- The process is terminated: `abort()`. -/
def abort {α : Type} : M α :=
  fun _ => .error Halt.aborted

/-- `v8::ThrowException(String::New(msg))`: schedules the exception on the
engine and yields `Undefined`. -/
def ThrowException (msg : String) : M JsValue :=
  fun w => .ok (JsValue.Undefined,
    { w with exception := some msg, trace := w.trace ++ [Event.ThrowException msg] })

/-- Whether mutex `m` is held. -/
def Audio.held (a : Audio) : Side → Bool
  | Side.input => a.in_mutex_
  | Side.output => a.out_mutex_

/-- Mark mutex `m` held or free. -/
def Audio.setHeld (a : Audio) (b : Bool) : Side → Audio
  | Side.input => { a with in_mutex_ := b }
  | Side.output => { a with out_mutex_ := b }

/-- `uv_mutex_lock`: acquires a free mutex; on a mutex that is held and
never released the caller waits forever. -/
def uv_mutex_lock (m : Side) : M Unit :=
  fun w => if w.a.held m then .error Halt.blocked
    else .ok ((), { w with a := w.a.setHeld true m,
                           trace := w.trace ++ [Event.uv_mutex_lock m] })

/-- `uv_mutex_unlock`. -/
def uv_mutex_unlock (m : Side) : M Unit :=
  fun w => .ok ((), { w with a := w.a.setHeld false m,
                             trace := w.trace ++ [Event.uv_mutex_unlock m] })

/-- Mark hardware unit `u` running or stopped. -/
def Audio.setRunning (a : Audio) (b : Bool) : Side → Audio
  | Side.input => { a with in_running := b }
  | Side.output => { a with out_running := b }

/-- `AudioOutputUnitStart(unit)` answering `st`: on `noErr` the unit is
running, otherwise its state is as before. -/
def AudioOutputUnitStart (u : Side) (st : OSStatus) : M OSStatus :=
  fun w => .ok (st, { w with a := if st = 0 then w.a.setRunning true u else w.a,
                             trace := w.trace ++ [Event.AudioOutputUnitStart u st] })

/-- `AudioOutputUnitStop(unit)` answering `st`: on `noErr` the unit is
stopped, otherwise its state is as before. -/
def AudioOutputUnitStop (u : Side) (st : OSStatus) : M OSStatus :=
  fun w => .ok (st, { w with a := if st = 0 then w.a.setRunning false u else w.a,
                             trace := w.trace ++ [Event.AudioOutputUnitStop u st] })

/-- `uv_ref` on `in_async_`: the handle keeps the loop alive. -/
def uv_ref : M Unit :=
  fun w => .ok ((), { w with a := { w.a with in_async_ref := true },
                             trace := w.trace ++ [Event.uv_ref] })

/-- `uv_unref` on `in_async_`. -/
def uv_unref : M Unit :=
  fun w => .ok ((), { w with a := { w.a with in_async_ref := false },
                             trace := w.trace ++ [Event.uv_unref] })

/-- `node::ObjectWrap::Ref`: `refs_++`. -/
def Ref : M Unit :=
  fun w => .ok ((), { w with a := { w.a with refs_ := w.a.refs_ + 1 },
                             trace := w.trace ++ [Event.Ref] })

/-- `node::ObjectWrap::Unref`: `assert(refs_ > 0); --refs_`. -/
def Unref : M Unit :=
  fun w => if w.a.refs_ = 0 then .error Halt.aborted
    else .ok ((), { w with a := { w.a with refs_ := w.a.refs_ - 1 },
                           trace := w.trace ++ [Event.Unref] })

/-- `uv_async_send(&in_async_)`: coalescing wake-up of the consumer. -/
def uv_async_send : M Unit :=
  fun w => .ok ((), { w with a := { w.a with in_async_pending := true },
                             trace := w.trace ++ [Event.uv_async_send] })

/-- `MakeCallback(a->handle_, ondata_sym, 1, argv)`: the consumer's `ondata`
is invoked with one block. -/
def MakeCallback_ondata (block : List Byte) : M Unit :=
  emit (Event.ondata block)

/-- How the JavaScript caller sees the end of a native call: the call never
comes back, or an exception scheduled during it is thrown (the returned
handle is then discarded), or the returned value is delivered. -/
inductive Completion
  | dies (h : Halt)
  | throws (msg : String)
  | returns (v : JsValue)
deriving DecidableEq, Repr

/-- The engine's calling convention for native functions. -/
def completion : Except Halt (JsValue × World) → Completion
  | .error h => Completion.dies h
  | .ok (v, w) =>
    match w.exception with
    | some msg => Completion.throws msg
    | none => Completion.returns v

set_option linter.dupNamespace false

/-! ## Construction -/

/-- The CoreAudio calls `CreateAudioUnit` wraps in `CHECK`, in source order. -/
inductive SetupCall
  | InstanceNew
  | EnableInput
  | EnableOutput
  | GetDefaultInputDevice
  | SetCurrentDevice
  | SetInputCallback
  | SetRenderCallback
  | GetStreamFormat
  | SetStreamFormatOutputScope
  | SetStreamFormatInputScope
  | ShouldAllocateBuffer
  | Initialize
deriving DecidableEq, Repr

/-- What the hardware layer answers during set-up: whether
`AudioComponentFindNext` finds a component, the status of every checked call
(per unit), the instance handed out, and the stream format the capture unit
reports. -/
structure CoreAudio where
  component : Bool → Option Nat
  status : Bool → SetupCall → OSStatus
  unit : Bool → AudioUnit
  format : AudioStreamBasicDescription

/-- What libuv and the allocator answer during construction. -/
structure Runtime where
  uv_async_init : Int
  uv_mutex_init_in : Int
  uv_mutex_init_out : Int
  calloc_ok : Bool

/-- The macro `CHECK(op, msg)`: on a status other than `noErr` it throws
`msg - st` and makes the enclosing function `return NULL` (the failure of
`OptionT`). -/
def CHECK (st : OSStatus) (msg : String) : OptionT M Unit :=
  if st ≠ 0 then do
    let _ ← ThrowException (msg ++ " - " ++ toString st)
    failure
  else pure ()

/-- `AudioUnitGetProperty(unit, kAudioUnitProperty_StreamFormat, ..., &desc_,
&size)` answering `st`: on `noErr` the format the unit reports has been
written to `desc_`. -/
def AudioUnitGetProperty_StreamFormat (st : OSStatus) (format : AudioStreamBasicDescription) :
    OptionT M OSStatus :=
  OptionT.mk fun w =>
    .ok (some st, { w with a := if st = 0 then { w.a with desc_ := format } else w.a })

/-- `Audio::CreateAudioUnit(is_input)`; `none` is `NULL`. -/
def Audio.CreateAudioUnit (hw : CoreAudio) (is_input : Bool) : M (Option AudioUnit) :=
  OptionT.run do
    -- Initialize Unit
    if (hw.component is_input).isNone then
      let _ ← ThrowException "AudioComponentFindNext() failed"
      failure
    CHECK (hw.status is_input SetupCall.InstanceNew) "AudioComponentInstanceNew() failed"
    -- Attach input/output
    CHECK (hw.status is_input SetupCall.EnableInput) "Input: EnableIO failed"
    CHECK (hw.status is_input SetupCall.EnableOutput) "Output: EnableIO failed"
    -- Set input device
    if is_input then
      CHECK (hw.status is_input SetupCall.GetDefaultInputDevice) "Failed to get input device"
      CHECK (hw.status is_input SetupCall.SetCurrentDevice) "Failed to set input device"
    -- Setup callbacks
    if is_input then
      CHECK (hw.status is_input SetupCall.SetInputCallback) "Input: set callback failed"
    else
      CHECK (hw.status is_input SetupCall.SetRenderCallback) "Output: set callback failed"
    -- Set format
    if is_input then
      CHECK (← AudioUnitGetProperty_StreamFormat
          (hw.status is_input SetupCall.GetStreamFormat) hw.format)
        "Input: get StreamFormat failed"
    CHECK (hw.status is_input SetupCall.SetStreamFormatOutputScope)
      "Input: set StreamFormat failed"
    CHECK (hw.status is_input SetupCall.SetStreamFormatInputScope)
      "Output: set StreamFormat failed"
    -- Some wierd options
    CHECK (hw.status is_input SetupCall.ShouldAllocateBuffer)
      "Input: ShouldAllocateBuffer failed"
    CHECK (hw.status is_input SetupCall.Initialize) "AudioUnitInitialized() failed"
    return hw.unit is_input

/-- The checked CoreAudio calls `CreateAudioUnit(is_input)` issues. -/
def SetupCall.issued : Bool → List SetupCall
  | true => [SetupCall.InstanceNew, SetupCall.EnableInput, SetupCall.EnableOutput,
      SetupCall.GetDefaultInputDevice, SetupCall.SetCurrentDevice, SetupCall.SetInputCallback,
      SetupCall.GetStreamFormat, SetupCall.SetStreamFormatOutputScope,
      SetupCall.SetStreamFormatInputScope, SetupCall.ShouldAllocateBuffer, SetupCall.Initialize]
  | false => [SetupCall.InstanceNew, SetupCall.EnableInput, SetupCall.EnableOutput,
      SetupCall.SetRenderCallback, SetupCall.SetStreamFormatOutputScope,
      SetupCall.SetStreamFormatInputScope, SetupCall.ShouldAllocateBuffer, SetupCall.Initialize]

/-- Set-up of one unit is rejected: component discovery fails, or one of
the checked calls issued for that unit answers a status other than `noErr`. -/
def CoreAudio.rejects (hw : CoreAudio) (is_input : Bool) : Prop :=
  hw.component is_input = none ∨ ∃ c ∈ SetupCall.issued is_input, hw.status is_input c ≠ 0

/-- The object after the member initialisers of `Audio::Audio()` and the
`memset` of `desc_`, before the constructor body runs. -/
def Audio.members : Audio :=
  { in_unit_ := none
    out_unit_ := none
    in_buffer_ := RingBuffer.create (100 * 1024)
    out_buffer_ := RingBuffer.create (100 * 1024)
    desc_ := { mBytesPerFrame := 0, mChannelsPerFrame := 0 }
    in_async_ref := false
    in_async_pending := false
    in_mutex_ := false
    out_mutex_ := false
    blist_ := { mNumberBuffers := 0, mNumberChannels := 0, mData := none, mDataByteSize := 0 }
    refs_ := 0
    in_running := false
    out_running := false }

/-- The world a constructor call starts in. -/
def World.fresh : World :=
  { a := Audio.members, exception := none, trace := [] }

/-- The body of the constructor `Audio::Audio()`. -/
def Audio.Audio (hw : CoreAudio) (rt : Runtime) : M Unit := do
  -- Setup input/output units
  let in_unit ← Audio.CreateAudioUnit hw true
  setAudio fun a => { a with in_unit_ := in_unit }
  let out_unit ← Audio.CreateAudioUnit hw false
  setAudio fun a => { a with out_unit_ := out_unit }
  -- Setup async callbacks
  if rt.uv_async_init ≠ 0 then abort
  uv_unref
  -- Setup mutexes
  if rt.uv_mutex_init_in ≠ 0 then abort
  if rt.uv_mutex_init_out ≠ 0 then abort
  -- Init buffer list
  if !rt.calloc_ok then abort
  setAudio fun a => { a with blist_ :=
    { mNumberBuffers := 1, mNumberChannels := a.desc_.mChannelsPerFrame,
      mData := none, mDataByteSize := 0 } }

/-- `Audio::New`: constructs the object and returns `args.This()`.  Wrapping
the object into the receiver and setting `rate` and `channels` on it touch
no member modelled here. -/
def Audio.New (hw : CoreAudio) (rt : Runtime) : M JsValue := do
  Audio.Audio hw rt
  return JsValue.This

/-! ## Start and stop -/

/-- `Audio::Start`; `st_in` and `st_out` are what the hardware answers to the
two `AudioOutputUnitStart` calls. -/
def Audio.Start (st_in st_out : OSStatus) : M JsValue := do
  let st ← AudioOutputUnitStart Side.input st_in
  if st ≠ 0 then
    return (← ThrowException "Failed to start unit!")
  let st ← AudioOutputUnitStart Side.output st_out
  if st ≠ 0 then
    return (← ThrowException "Failed to start unit!")
  uv_ref
  Ref
  return JsValue.Null

/-- `Audio::Stop`; `st_in` and `st_out` are what the hardware answers to the
two `AudioOutputUnitStop` calls. -/
def Audio.Stop (st_in st_out : OSStatus) : M JsValue := do
  let st ← AudioOutputUnitStop Side.input st_in
  if st ≠ 0 then
    return (← ThrowException "Failed to stop unit!")
  let st ← AudioOutputUnitStop Side.output st_out
  if st ≠ 0 then
    return (← ThrowException "Failed to stop unit!")
  uv_unref
  Unref
  return JsValue.Null

/-! ## The data paths -/

/-- `a->out_buffer_.Produce(size)`. -/
def out_buffer_Produce (size : Nat) : M Nat :=
  fun w => .ok ((w.a.out_buffer_.Produce size).2,
    { w with a := { w.a with out_buffer_ := (w.a.out_buffer_.Produce size).1 },
             trace := w.trace ++ [Event.Produce Side.output size] })

/-- `memcpy(data, buff, size)` where `data` is a region of `out_buffer_`. -/
def out_buffer_memcpy (data : Nat) (buff : List Byte) (size : Nat) : M Unit :=
  fun w => .ok ((),
    { w with a := { w.a with out_buffer_ := w.a.out_buffer_.store data (buff.take size) },
             trace := w.trace ++ [Event.memcpy size] })

/-- `Audio::Enqueue`. -/
def Audio.Enqueue (args : List JsValue) : M JsValue := do
  match args with
  | JsValue.Buffer buff :: _ =>
    let size := buff.length
    uv_mutex_lock Side.output
    let data ← out_buffer_Produce size
    out_buffer_memcpy data buff size
    uv_mutex_unlock Side.output
    return JsValue.Null
  | _ =>
    return (← ThrowException "First argument should be a Buffer!")

/-- `a->in_buffer_.Produce(size)`. -/
def in_buffer_Produce (size : Nat) : M Nat :=
  fun w => .ok ((w.a.in_buffer_.Produce size).2,
    { w with a := { w.a with in_buffer_ := (w.a.in_buffer_.Produce size).1 },
             trace := w.trace ++ [Event.Produce Side.input size] })

/-- `AudioUnitRender(a->in_unit_, ..., frame_count, a->blist_)` answering
`st`: on `noErr` the hardware has written the captured `samples` (as many as
`mDataByteSize` allows) to the region `mData` of `in_buffer_`. -/
def AudioUnitRender (frame_count : Nat) (st : OSStatus) (samples : List Byte) : M OSStatus :=
  fun w => .ok (st,
    { w with
      a := if st = 0 then
          { w.a with in_buffer_ := (w.a.in_buffer_.store (w.a.blist_.mData.getD 0)
              (samples.take w.a.blist_.mDataByteSize)) }
        else w.a
      trace := w.trace ++ [Event.AudioUnitRender frame_count st] })

/-- `Audio::InputCallback`, the capture callback; `frame_count` is a
`UInt32`, `st` and `samples` are what `AudioUnitRender` answers. -/
def Audio.InputCallback (frame_count : Nat) (st : OSStatus) (samples : List Byte) :
    M OSStatus := do
  uv_mutex_lock Side.input
  -- Setup buffer list
  let a ← getAudio
  let size := (frame_count * a.desc_.mBytesPerFrame) % 2 ^ 32
  setAudio fun a => { a with blist_ := { a.blist_ with mDataByteSize := size } }
  let region ← in_buffer_Produce size
  setAudio fun a => { a with blist_ := { a.blist_ with mData := some region } }
  -- Write received data to buffer list
  let st ← AudioUnitRender frame_count st samples
  if st ≠ 0 then abort
  uv_async_send
  uv_mutex_unlock Side.input
  return 0

/-- `a->in_buffer_.Flush(Buffer::Data(in))`; yields the filled block. -/
def in_buffer_Flush (dest : List Byte) : M (List Byte) :=
  fun w => .ok ((w.a.in_buffer_.Flush dest).2.1,
    { w with a := { w.a with in_buffer_ := (w.a.in_buffer_.Flush dest).1 },
             trace := w.trace ++ [Event.Flush Side.input (w.a.in_buffer_.Flush dest).2.2] })

/-- `Audio::InputAsyncCallback`, run on the consumer's loop when the
notifier fires. -/
def Audio.InputAsyncCallback : M Unit := do
  uv_mutex_lock Side.input
  if (← getAudio).in_buffer_.Size = 0 then return
  -- Buffer::New(a->in_buffer_.Size())
  let block := List.replicate (← getAudio).in_buffer_.Size (0 : Byte)
  let block ← in_buffer_Flush block
  uv_mutex_unlock Side.input
  MakeCallback_ondata block

/-- `a->out_buffer_.Fill(buff, size)`; yields the count and the destination
memory. -/
def out_buffer_Fill (buff : List Byte) (size : Nat) : M (Nat × List Byte) :=
  fun w => .ok (((w.a.out_buffer_.Fill buff size).2.2, (w.a.out_buffer_.Fill buff size).2.1),
    { w with a := { w.a with out_buffer_ := (w.a.out_buffer_.Fill buff size).1 },
             trace := w.trace ++
               [Event.Fill Side.output size (w.a.out_buffer_.Fill buff size).2.2] })

/-- `Audio::OutputCallback`, the render callback; the result is the status
and the destination descriptor as the hardware finds it afterwards. -/
def Audio.OutputCallback (data : AudioBuffer) : M (OSStatus × AudioBuffer) := do
  let buff := data.mData
  let size := data.mDataByteSize
  -- Put available bytes from buffer
  uv_mutex_lock Side.output
  let (written, buff) ← out_buffer_Fill buff size
  uv_mutex_unlock Side.output
  -- Fill rest with zeroes
  if written < size then
    emit (Event.memset written (size - written))
    return (0, { data with mData := memZero buff written (size - written) })
  return (0, { data with mData := buff })

/-- Enqueue each buffer of `bs` in turn (one `Audio::Enqueue` call per
buffer); yields the values returned. -/
def enqueueAll : List (List Byte) → M (List JsValue)
  | [] => pure []
  | b :: bs => do
    let v ← Audio.Enqueue [JsValue.Buffer b]
    let vs ← enqueueAll bs
    pure (v :: vs)

/-- Run one render callback per descriptor of `ds`; yields, per callback,
the bytes the hardware finds in the requested part of its destination. -/
def renderAll : List AudioBuffer → M (List (List Byte))
  | [] => pure []
  | d :: ds => do
    let (_, d') ← Audio.OutputCallback d
    let outs ← renderAll ds
    pure (d'.mData.take d.mDataByteSize :: outs)

/-- The blocks handed to the consumer's `ondata` in a trace, in order. -/
def deliveries : List Event → List (List Byte)
  | [] => []
  | Event.ondata block :: t => block :: deliveries t
  | _ :: t => deliveries t

/-! ## Concrete sessions -/

/-- A hardware layer that accepts every set-up call and reports a stream
format of 4 bytes per frame on 2 channels. -/
def CoreAudio.ready : CoreAudio :=
  { component := fun _ => some 1
    status := fun _ _ => 0
    unit := fun is_input => if is_input then 1 else 2
    format := { mBytesPerFrame := 4, mChannelsPerFrame := 2 } }

/-- As `CoreAudio.ready`, but the render unit refuses to initialise. -/
def CoreAudio.renderFails : CoreAudio :=
  { CoreAudio.ready with
    status := fun is_input c =>
      if is_input = false ∧ c = SetupCall.Initialize then -50 else 0 }

/-- A runtime in which libuv and the allocator succeed. -/
def Runtime.ready : Runtime :=
  { uv_async_init := 0, uv_mutex_init_in := 0, uv_mutex_init_out := 0, calloc_ok := true }

/-- The session `Audio::New` yields on `CoreAudio.ready`: stopped, both ring
buffers empty with capacity `100 * 1024`. -/
def World.opened : World :=
  { a := { Audio.members with
      in_unit_ := some 1
      out_unit_ := some 2
      desc_ := { mBytesPerFrame := 4, mChannelsPerFrame := 2 }
      blist_ := { mNumberBuffers := 1, mNumberChannels := 2, mData := none, mDataByteSize := 0 } }
    exception := none
    trace := [] }

/-- The opened session after two successful `Start` calls. -/
def World.startedTwice : World :=
  { World.opened with
    a := { World.opened.a with
      in_running := true, out_running := true, in_async_ref := true, refs_ := 2 } }

/-- A session object with ring buffers of capacity 8; the output buffer
holds `[1, 2, 3]` at logical offsets `6 .. 9`, wrapped around the end of its
storage, the input buffer holds `[7, 8]`. -/
def World.small : World :=
  { a := { Audio.members with
      in_unit_ := some 1
      out_unit_ := some 2
      in_buffer_ := { capacity := 8, storage := [7, 8, 0, 0, 0, 0, 0, 0], R := 0, W := 2 }
      out_buffer_ := { capacity := 8, storage := [3, 0, 0, 0, 0, 0, 1, 2], R := 6, W := 9 }
      desc_ := { mBytesPerFrame := 4, mChannelsPerFrame := 2 }
      blist_ := { mNumberBuffers := 1, mNumberChannels := 2, mData := none, mDataByteSize := 0 }
      refs_ := 2 }
    exception := none
    trace := [] }

/-- As `World.small`, with the output buffer empty. -/
def World.smallEmpty : World :=
  { World.small with
    a := { World.small.a with
      out_buffer_ := { capacity := 8, storage := [3, 0, 0, 0, 0, 0, 1, 2], R := 9, W := 9 } } }

/-! ## Lemmas: wrapped storage -/

theorem readAt_length (st : List Byte) (C : Nat) (n off : Nat) :
    (readAt st C off n).length = n := by
  induction n generalizing off with
  | zero => rfl
  | succ n ih => simp [readAt, ih]

theorem readAt_add (st : List Byte) (C : Nat) (a b off : Nat) :
    readAt st C off (a + b) = readAt st C off a ++ readAt st C (off + a) b := by
  induction a generalizing off with
  | zero => simp [readAt]
  | succ a ih =>
    have h : a + 1 + b = (a + b) + 1 := by omega
    rw [h, readAt, readAt, ih (off + 1)]
    have h2 : off + 1 + a = off + (a + 1) := by omega
    rw [h2]; rfl

theorem readAt_take (st : List Byte) (C : Nat) (off w n : Nat) (h : w ≤ n) :
    (readAt st C off n).take w = readAt st C off w := by
  obtain ⟨k, rfl⟩ := Nat.exists_eq_add_of_le h
  rw [readAt_add, List.take_left']
  exact readAt_length st C w off

theorem readAt_drop (st : List Byte) (C : Nat) (off w n : Nat) (h : w ≤ n) :
    (readAt st C off n).drop w = readAt st C (off + w) (n - w) := by
  obtain ⟨k, rfl⟩ := Nat.exists_eq_add_of_le h
  rw [readAt_add, List.drop_left']
  · simp
  · exact readAt_length st C w off

theorem writeAt_length (st : List Byte) (C : Nat) (bs : List Byte) (off : Nat) :
    (writeAt st C off bs).length = st.length := by
  induction bs generalizing st off with
  | nil => rfl
  | cons b bs ih => simp [writeAt, ih]

theorem readAt_set_of_ne (st : List Byte) (C p : Nat) (b : Byte) (n off : Nat)
    (h : ∀ i, i < n → (off + i) % C ≠ p) :
    readAt (st.set p b) C off n = readAt st C off n := by
  induction n generalizing off with
  | zero => rfl
  | succ n ih =>
    have h0 : off % C ≠ p := by simpa using h 0 (Nat.succ_pos n)
    have hrest : ∀ i, i < n → (off + 1 + i) % C ≠ p := by
      intro i hi
      have := h (i + 1) (by omega)
      have e : off + 1 + i = off + (i + 1) := by omega
      rw [e]; exact this
    simp only [readAt, ih (off + 1) hrest]
    congr 1
    simp [List.getD_eq_getElem?_getD, List.getElem?_set_ne (Ne.symm h0)]

theorem mod_ne_of_lt (C R i j : Nat) (hij : i < j) (hC : j - i < C) :
    (R + i) % C ≠ (R + j) % C := by
  intro h
  have h1 : (R + i) ≡ (R + j) [MOD C] := h
  have h2 : i ≡ j [MOD C] := Nat.ModEq.add_left_cancel' R h1
  have h3 : C ∣ j - i := (Nat.modEq_iff_dvd' (Nat.le_of_lt hij)).1 h2
  have h4 : C ≤ j - i := Nat.le_of_dvd (by omega) h3
  omega

theorem readAt_writeAt (st : List Byte) (C R : Nat) (bs : List Byte) (used : Nat)
    (hlen : st.length = C) (hfit : used + bs.length ≤ C) :
    readAt (writeAt st C (R + used) bs) C R (used + bs.length)
      = readAt st C R used ++ bs := by
  induction bs generalizing st used with
  | nil => simp [writeAt]
  | cons b bs ih =>
    simp only [List.length_cons] at hfit
    have hC : 0 < C := by omega
    have e1 : used + (b :: bs).length = (used + 1) + bs.length := by
      simp only [List.length_cons]; omega
    rw [e1, writeAt]
    have e2 : R + used + 1 = R + (used + 1) := by omega
    rw [e2, ih (st.set ((R + used) % C) b) (used + 1) (by simpa using hlen) (by omega)]
    rw [readAt_add, readAt_set_of_ne]
    · have hlt : (R + used) % C < st.length := by rw [hlen]; exact Nat.mod_lt _ hC
      simp [readAt, List.getD_eq_getElem?_getD, List.getElem?_set_self, hlt]
    · intro i hi
      exact mod_ne_of_lt C R i used hi (by omega)

/-! ## Lemmas: the ring buffer contract -/

theorem Fill_count (rb : RingBuffer) (dest : List Byte) (max : Nat) :
    (rb.Fill dest max).2.2 = min max rb.Size := rfl

theorem Fill_dest (rb : RingBuffer) (dest : List Byte) (max : Nat) :
    (rb.Fill dest max).2.1 =
      rb.contents.take (min max rb.Size) ++ dest.drop (min max rb.Size) := by
  simp only [RingBuffer.Fill, memWrite, RingBuffer.contents, List.take_zero, List.nil_append,
    readAt_length, Nat.zero_add]
  rw [readAt_take _ _ _ _ _ (Nat.min_le_right _ _)]

theorem Fill_contents (rb : RingBuffer) (dest : List Byte) (max : Nat) :
    (rb.Fill dest max).1.contents = rb.contents.drop (min max rb.Size) := by
  simp only [RingBuffer.Fill, RingBuffer.contents, RingBuffer.Size]
  rw [readAt_drop _ _ _ _ _ (Nat.min_le_right _ _)]
  congr 1
  omega

theorem Fill_WF (rb : RingBuffer) (dest : List Byte) (max : Nat) (h : rb.WF) :
    (rb.Fill dest max).1.WF := by
  obtain ⟨h1, h2, h3⟩ := h
  simp only [RingBuffer.Fill, RingBuffer.WF, RingBuffer.Size]
  refine ⟨h1, ?_, ?_⟩ <;> omega

theorem contents_length (rb : RingBuffer) : rb.contents.length = rb.Size :=
  readAt_length _ _ _ _

theorem Produce_store_contents (rb : RingBuffer) (src : List Byte) (h : rb.WF)
    (hfit : rb.Size + src.length ≤ rb.capacity) :
    ((rb.Produce src.length).1.store (rb.Produce src.length).2 src).contents
      = rb.contents ++ src := by
  obtain ⟨h1, h2, h3⟩ := h
  simp only [RingBuffer.Produce, RingBuffer.store, RingBuffer.contents, RingBuffer.Size] at *
  have e1 : rb.W = rb.R + (rb.W - rb.R) := by omega
  have e2 : rb.W + src.length - rb.R = (rb.W - rb.R) + src.length := by omega
  rw [e2]
  conv_lhs => rw [e1]
  have e3 : rb.R + (rb.W - rb.R) - rb.R = rb.W - rb.R := by omega
  rw [e3]
  exact readAt_writeAt rb.storage rb.capacity rb.R src (rb.W - rb.R) h1 hfit

theorem Produce_store_WF (rb : RingBuffer) (src : List Byte) (h : rb.WF)
    (hfit : rb.Size + src.length ≤ rb.capacity) :
    ((rb.Produce src.length).1.store (rb.Produce src.length).2 src).WF := by
  obtain ⟨h1, h2, h3⟩ := h
  simp only [RingBuffer.Produce, RingBuffer.store, RingBuffer.WF, RingBuffer.Size,
    writeAt_length] at *
  refine ⟨h1, ?_, ?_⟩ <;> omega

theorem Produce_store_Size (rb : RingBuffer) (src : List Byte) (h : rb.R ≤ rb.W) :
    ((rb.Produce src.length).1.store (rb.Produce src.length).2 src).Size
      = rb.Size + src.length := by
  simp only [RingBuffer.Produce, RingBuffer.store, RingBuffer.Size]
  omega
/-! ## Lemmas: one call of each member function -/

theorem Enqueue_run (w : World) (buff : List Byte) (rest : List JsValue)
    (h : w.a.out_mutex_ = false) :
    (Audio.Enqueue (JsValue.Buffer buff :: rest)).run w =
      .ok (JsValue.Null,
        { w with
          a := { w.a with
            out_buffer_ := (w.a.out_buffer_.Produce buff.length).1.store
              (w.a.out_buffer_.Produce buff.length).2 buff
            out_mutex_ := false }
          trace := w.trace ++ [Event.uv_mutex_lock Side.output,
            Event.Produce Side.output buff.length, Event.memcpy buff.length,
            Event.uv_mutex_unlock Side.output] }) := by
  simp [Audio.Enqueue, uv_mutex_lock, out_buffer_Produce, out_buffer_memcpy, uv_mutex_unlock,
    StateT.run, bind, StateT.bind, Except.bind, pure, StateT.pure, Except.pure,
    Audio.held, Audio.setHeld, h]

theorem OutputCallback_run (w : World) (data : AudioBuffer)
    (h : w.a.out_mutex_ = false) (r : RingBuffer × List Byte × Nat)
    (hr : r = w.a.out_buffer_.Fill data.mData data.mDataByteSize) :
    (Audio.OutputCallback data).run w =
      .ok ((0, { data with mData :=
                  if r.2.2 < data.mDataByteSize then
                    memZero r.2.1 r.2.2 (data.mDataByteSize - r.2.2)
                  else r.2.1 }),
        { w with
          a := { w.a with out_buffer_ := r.1, out_mutex_ := false }
          trace := w.trace ++ [Event.uv_mutex_lock Side.output,
            Event.Fill Side.output data.mDataByteSize r.2.2,
            Event.uv_mutex_unlock Side.output] ++
            if r.2.2 < data.mDataByteSize then
              [Event.memset r.2.2 (data.mDataByteSize - r.2.2)]
            else [] }) := by
  subst hr
  by_cases hlt : (w.a.out_buffer_.Fill data.mData data.mDataByteSize).2.2 < data.mDataByteSize <;>
  simp [Audio.OutputCallback, uv_mutex_lock, out_buffer_Fill, uv_mutex_unlock, emit,
    StateT.run, bind, StateT.bind, Except.bind, pure, StateT.pure, Except.pure,
    Audio.held, Audio.setHeld, h, hlt]

theorem Enqueue_reject (w : World) (args : List JsValue)
    (h : ∀ buff rest, args ≠ JsValue.Buffer buff :: rest) :
    (Audio.Enqueue args).run w =
      .ok (JsValue.Undefined,
        { w with
          exception := some "First argument should be a Buffer!"
          trace := w.trace ++ [Event.ThrowException "First argument should be a Buffer!"] }) := by
  unfold Audio.Enqueue
  split
  · rename_i buff rest
    exact absurd rfl (h buff rest)
  · simp [ThrowException, StateT.run, bind, StateT.bind, Except.bind, pure, StateT.pure,
      Except.pure]

theorem InputCallback_run (w : World) (frame_count : Nat) (st : OSStatus) (samples : List Byte)
    (h : w.a.in_mutex_ = false) :
    (Audio.InputCallback frame_count st samples).run w =
      if st ≠ 0 then .error Halt.aborted
      else .ok (0,
        { w with
          a := { w.a with
            in_buffer_ :=
              (w.a.in_buffer_.Produce ((frame_count * w.a.desc_.mBytesPerFrame) % 2 ^ 32)).1.store
                (w.a.in_buffer_.Produce ((frame_count * w.a.desc_.mBytesPerFrame) % 2 ^ 32)).2
                (samples.take ((frame_count * w.a.desc_.mBytesPerFrame) % 2 ^ 32))
            blist_ := { w.a.blist_ with
              mData := some (w.a.in_buffer_.Produce
                ((frame_count * w.a.desc_.mBytesPerFrame) % 2 ^ 32)).2
              mDataByteSize := (frame_count * w.a.desc_.mBytesPerFrame) % 2 ^ 32 }
            in_async_pending := true
            in_mutex_ := false }
          trace := w.trace ++ [Event.uv_mutex_lock Side.input,
            Event.Produce Side.input ((frame_count * w.a.desc_.mBytesPerFrame) % 2 ^ 32),
            Event.AudioUnitRender frame_count st,
            Event.uv_async_send,
            Event.uv_mutex_unlock Side.input] }) := by
  by_cases hst : st = 0 <;>
  simp [Audio.InputCallback, uv_mutex_lock, in_buffer_Produce, AudioUnitRender, uv_async_send,
    uv_mutex_unlock, getAudio, setAudio, abort,
    StateT.run, bind, StateT.bind, Except.bind, pure, StateT.pure, Except.pure,
    Audio.held, Audio.setHeld, h, hst]

theorem InputAsyncCallback_run (w : World) (h : w.a.in_mutex_ = false) :
    Audio.InputAsyncCallback.run w =
      if w.a.in_buffer_.Size = 0 then
        .ok ((), { w with a := { w.a with in_mutex_ := true },
                          trace := w.trace ++ [Event.uv_mutex_lock Side.input] })
      else
        .ok ((), { w with
          a := { w.a with
            in_buffer_ := (w.a.in_buffer_.Flush (List.replicate w.a.in_buffer_.Size 0)).1
            in_mutex_ := false }
          trace := w.trace ++ [Event.uv_mutex_lock Side.input,
            Event.Flush Side.input w.a.in_buffer_.Size,
            Event.uv_mutex_unlock Side.input,
            Event.ondata (w.a.in_buffer_.Flush (List.replicate w.a.in_buffer_.Size 0)).2.1] }) := by
  by_cases hs : w.a.in_buffer_.Size = 0 <;>
  simp [Audio.InputAsyncCallback, uv_mutex_lock, in_buffer_Flush, MakeCallback_ondata, emit,
    uv_mutex_unlock, getAudio, RingBuffer.Flush,
    StateT.run, bind, StateT.bind, Except.bind, pure, StateT.pure, Except.pure,
    Audio.held, Audio.setHeld, h, hs]

theorem Start_run (w : World) (st_in st_out : OSStatus) :
    (Audio.Start st_in st_out).run w =
      if st_in ≠ 0 then
        .ok (JsValue.Undefined,
          { w with
            exception := some "Failed to start unit!"
            trace := w.trace ++ [Event.AudioOutputUnitStart Side.input st_in,
              Event.ThrowException "Failed to start unit!"] })
      else if st_out ≠ 0 then
        .ok (JsValue.Undefined,
          { w with
            a := { w.a with in_running := true }
            exception := some "Failed to start unit!"
            trace := w.trace ++ [Event.AudioOutputUnitStart Side.input st_in,
              Event.AudioOutputUnitStart Side.output st_out,
              Event.ThrowException "Failed to start unit!"] })
      else
        .ok (JsValue.Null,
          { w with
            a := { w.a with
              in_running := true, out_running := true, in_async_ref := true,
              refs_ := w.a.refs_ + 1 }
            trace := w.trace ++ [Event.AudioOutputUnitStart Side.input st_in,
              Event.AudioOutputUnitStart Side.output st_out, Event.uv_ref, Event.Ref] }) := by
  by_cases h1 : st_in = 0 <;> by_cases h2 : st_out = 0 <;>
  simp [Audio.Start, AudioOutputUnitStart, ThrowException, uv_ref, Ref, Audio.setRunning,
    StateT.run, bind, StateT.bind, Except.bind, pure, StateT.pure, Except.pure, h1, h2]

theorem Stop_run (w : World) (st_in st_out : OSStatus) :
    (Audio.Stop st_in st_out).run w =
      if st_in ≠ 0 then
        .ok (JsValue.Undefined,
          { w with
            exception := some "Failed to stop unit!"
            trace := w.trace ++ [Event.AudioOutputUnitStop Side.input st_in,
              Event.ThrowException "Failed to stop unit!"] })
      else if st_out ≠ 0 then
        .ok (JsValue.Undefined,
          { w with
            a := { w.a with in_running := false }
            exception := some "Failed to stop unit!"
            trace := w.trace ++ [Event.AudioOutputUnitStop Side.input st_in,
              Event.AudioOutputUnitStop Side.output st_out,
              Event.ThrowException "Failed to stop unit!"] })
      else if w.a.refs_ = 0 then .error Halt.aborted
      else
        .ok (JsValue.Null,
          { w with
            a := { w.a with
              in_running := false, out_running := false, in_async_ref := false,
              refs_ := w.a.refs_ - 1 }
            trace := w.trace ++ [Event.AudioOutputUnitStop Side.input st_in,
              Event.AudioOutputUnitStop Side.output st_out, Event.uv_unref, Event.Unref] }) := by
  by_cases h1 : st_in = 0 <;> by_cases h2 : st_out = 0 <;> by_cases h3 : w.a.refs_ = 0 <;>
  simp [Audio.Stop, AudioOutputUnitStop, ThrowException, uv_unref, Unref, Audio.setRunning,
    StateT.run, bind, StateT.bind, Except.bind, pure, StateT.pure, Except.pure, h1, h2, h3]
/-! ## Lemmas: construction -/

theorem CHECK_bind {α : Type} (st : OSStatus) (msg : String) (k : Unit → OptionT M α)
    (w : World) :
    (OptionT.run (CHECK st msg >>= k)) w =
      if st ≠ 0 then
        .ok (none, { w with
          exception := some (msg ++ " - " ++ toString st)
          trace := w.trace ++ [Event.ThrowException (msg ++ " - " ++ toString st)] })
      else (OptionT.run (k ())) w := by
  by_cases h : st = 0
  · simp [CHECK, h]
  · simp [CHECK, h, ThrowException, OptionT.run, bind, OptionT.bind, StateT.bind, Except.bind,
      liftM, monadLift, MonadLift.monadLift, OptionT.lift, failure, OptionT.fail,
      pure, StateT.pure, Except.pure, OptionT.mk]

theorem GetStreamFormat_bind {α : Type} (st : OSStatus) (format : AudioStreamBasicDescription)
    (k : OSStatus → OptionT M α) (w : World) :
    (OptionT.run (AudioUnitGetProperty_StreamFormat st format >>= k)) w =
      (OptionT.run (k st))
        { w with a := if st = 0 then { w.a with desc_ := format } else w.a } := by
  simp [AudioUnitGetProperty_StreamFormat, OptionT.run, bind, OptionT.bind, StateT.bind,
    Except.bind, OptionT.mk]

theorem CreateAudioUnit_run (hw : CoreAudio) (is_input : Bool) (w : World) :
    ∃ r w', (Audio.CreateAudioUnit hw is_input) w = .ok (r, w') ∧
      (hw.rejects is_input → r = none ∧ w'.exception.isSome = true) ∧
      (¬ hw.rejects is_input → r = some (hw.unit is_input) ∧ w'.exception = w.exception) ∧
      (w.exception.isSome = true → w'.exception.isSome = true) ∧
      w'.a = { w.a with desc_ := w'.a.desc_ } := by
  simp only [CoreAudio.rejects]
  cases hc : hw.component is_input with
  | none =>
    refine ⟨none, { w with
      exception := some "AudioComponentFindNext() failed"
      trace := w.trace ++ [Event.ThrowException "AudioComponentFindNext() failed"] }, ?_, ?_⟩
    · simp [Audio.CreateAudioUnit, ThrowException, hc, OptionT.run, bind, OptionT.bind,
        StateT.bind, Except.bind, liftM, monadLift, MonadLift.monadLift, OptionT.lift, failure,
        OptionT.fail, pure, StateT.pure, Except.pure, OptionT.mk]
    · simp
  | some c =>
    cases is_input
    all_goals simp only [SetupCall.issued, List.mem_cons, exists_eq_or_imp,
      List.mem_singleton, exists_eq_left, List.not_mem_nil, false_and, exists_false, or_false,
      Audio.CreateAudioUnit, hc, Option.isNone_some, Bool.false_eq_true, ↓reduceIte,
      pure_bind, bind_assoc]
    all_goals repeat' (first
      | (rw [CHECK_bind]; split_ifs)
      | rw [GetStreamFormat_bind])
    all_goals (refine ⟨_, _, rfl, ?_⟩; simp_all)

theorem ctor_unfold (hw : CoreAudio) (rt : Runtime) (w : World) :
    (Audio.Audio hw rt).run w =
      match Audio.CreateAudioUnit hw true w with
      | .error h => .error h
      | .ok (r1, w1) =>
        match Audio.CreateAudioUnit hw false { w1 with a := { w1.a with in_unit_ := r1 } } with
        | .error h => .error h
        | .ok (r2, w2) =>
          if rt.uv_async_init ≠ 0 ∨ rt.uv_mutex_init_in ≠ 0 ∨ rt.uv_mutex_init_out ≠ 0 ∨
              rt.calloc_ok = false then .error Halt.aborted
          else .ok ((), { w2 with
            a := { w2.a with
              out_unit_ := r2
              in_async_ref := false
              blist_ := { mNumberBuffers := 1, mNumberChannels := w2.a.desc_.mChannelsPerFrame,
                          mData := none, mDataByteSize := 0 } }
            trace := w2.trace ++ [Event.uv_unref] }) := by
  simp only [Audio.Audio, StateT.run, bind, StateT.bind, Except.bind, setAudio]
  cases h1 : Audio.CreateAudioUnit hw true w with
  | error h => rfl
  | ok p1 =>
    obtain ⟨r1, w1⟩ := p1
    simp only []
    cases h2 : Audio.CreateAudioUnit hw false { w1 with a := { w1.a with in_unit_ := r1 } } with
    | error h => rfl
    | ok p2 =>
      obtain ⟨r2, w2⟩ := p2
      by_cases c1 : rt.uv_async_init = 0 <;> by_cases c2 : rt.uv_mutex_init_in = 0 <;>
      by_cases c3 : rt.uv_mutex_init_out = 0 <;> cases c4 : rt.calloc_ok <;>
      simp [abort, uv_unref, pure, StateT.pure, Except.pure, bind, StateT.bind, Except.bind,
        setAudio, c1, c2, c3, c4]

theorem New_run (hw : CoreAudio) (rt : Runtime) (w : World) :
    (Audio.New hw rt).run w =
      match (Audio.Audio hw rt).run w with
      | .error h => .error h
      | .ok (_, w') => .ok (JsValue.This, w') := by
  simp only [Audio.New, StateT.run, bind, StateT.bind, Except.bind, pure, StateT.pure, Except.pure]
  cases (Audio.Audio hw rt w) <;> rfl

theorem New_ready :
    ∃ w, (Audio.New CoreAudio.ready Runtime.ready).run World.fresh = .ok (JsValue.This, w) ∧
      w.a = World.opened.a ∧ w.exception = none := by
  have h1 : ∀ w : World, Audio.CreateAudioUnit CoreAudio.ready true w =
      .ok (some 1, { w with a := { w.a with desc_ := CoreAudio.ready.format } }) := by
    intro w
    simp only [Audio.CreateAudioUnit, CoreAudio.ready, Option.isNone_some, Bool.false_eq_true,
      ↓reduceIte, pure_bind, bind_assoc, CHECK_bind, GetStreamFormat_bind, ne_eq, not_true_eq_false]
    rfl
  have h2 : ∀ w : World, Audio.CreateAudioUnit CoreAudio.ready false w = .ok (some 2, w) := by
    intro w
    simp only [Audio.CreateAudioUnit, CoreAudio.ready, Option.isNone_some, Bool.false_eq_true,
      ↓reduceIte, pure_bind, bind_assoc, CHECK_bind, ne_eq, not_true_eq_false]
    rfl
  rw [New_run, ctor_unfold, h1]
  simp only [h2]
  rw [if_neg (by simp [Runtime.ready])]
  exact ⟨_, rfl, rfl, rfl⟩

/-! ## Lemmas: delivery and sequences of calls -/

theorem deliveries_append (t t' : List Event) :
    deliveries (t ++ t') = deliveries t ++ deliveries t' := by
  induction t with
  | nil => rfl
  | cons e t ih => cases e <;> simp [deliveries, ih]

theorem Flush_block (rb : RingBuffer) :
    (rb.Flush (List.replicate rb.Size 0)).2.1 = rb.contents := by
  simp [RingBuffer.Flush, RingBuffer.contents, memWrite, readAt_length]

theorem Flush_Size (rb : RingBuffer) (dest : List Byte) : (rb.Flush dest).1.Size = 0 := by
  simp [RingBuffer.Flush, RingBuffer.Size]

theorem enqueueAll_run (bs : List (List Byte)) :
    ∀ w : World, w.a.out_mutex_ = false → w.a.out_buffer_.WF →
      w.a.out_buffer_.Size + bs.flatten.length ≤ w.a.out_buffer_.capacity →
      ∃ w', (enqueueAll bs).run w = .ok (List.replicate bs.length JsValue.Null, w') ∧
        w'.a.out_mutex_ = false ∧ w'.a.out_buffer_.WF ∧
        w'.a.out_buffer_.contents = w.a.out_buffer_.contents ++ bs.flatten ∧
        w'.exception = w.exception := by
  induction bs with
  | nil =>
    intro w hfree hwf _
    exact ⟨w, rfl, hfree, hwf, by simp, rfl⟩
  | cons b bs ih =>
    intro w hfree hwf hfit
    simp only [List.flatten_cons, List.length_append] at hfit
    have hcap : ((w.a.out_buffer_.Produce b.length).1.store
        (w.a.out_buffer_.Produce b.length).2 b).capacity = w.a.out_buffer_.capacity := rfl
    have hstep := Enqueue_run w b [] hfree
    obtain ⟨w', hrun, hfree', hwf', hcont, hexc⟩ := ih
      { w with
        a := { w.a with
          out_buffer_ := (w.a.out_buffer_.Produce b.length).1.store
            (w.a.out_buffer_.Produce b.length).2 b
          out_mutex_ := false }
        trace := w.trace ++ [Event.uv_mutex_lock Side.output,
          Event.Produce Side.output b.length, Event.memcpy b.length,
          Event.uv_mutex_unlock Side.output] }
      rfl (Produce_store_WF _ _ hwf (by omega))
      (by
        show ((w.a.out_buffer_.Produce b.length).1.store
          (w.a.out_buffer_.Produce b.length).2 b).Size + bs.flatten.length ≤ _
        rw [Produce_store_Size _ _ hwf.2.1, hcap]
        omega)
    refine ⟨w', ?_, hfree', hwf', ?_, hexc⟩
    · simp only [enqueueAll, StateT.run, bind, StateT.bind, Except.bind] at hrun hstep ⊢
      rw [hstep]
      simp only [hrun]
      rfl
    · rw [hcont]
      show ((w.a.out_buffer_.Produce b.length).1.store
          (w.a.out_buffer_.Produce b.length).2 b).contents ++ bs.flatten = _
      rw [Produce_store_contents _ _ hwf (by omega)]
      simp

theorem renderAll_run (ds : List AudioBuffer) :
    ∀ w : World, w.a.out_mutex_ = false →
      (ds.map AudioBuffer.mDataByteSize).sum ≤ w.a.out_buffer_.Size →
      ∃ outs w', (renderAll ds).run w = .ok (outs, w') ∧
        outs.flatten = w.a.out_buffer_.contents.take (ds.map AudioBuffer.mDataByteSize).sum ∧
        outs.length = ds.length ∧
        w'.a.out_mutex_ = false ∧
        (∀ off n, Event.memset off n ∈ w'.trace → Event.memset off n ∈ w.trace) := by
  induction ds with
  | nil =>
    intro w hfree _
    exact ⟨[], w, rfl, by simp, rfl, hfree, fun _ _ h => h⟩
  | cons d ds ih =>
    intro w hfree hsum
    simp only [List.map_cons, List.sum_cons] at hsum
    have hmin : min d.mDataByteSize w.a.out_buffer_.Size = d.mDataByteSize :=
      Nat.min_eq_left (by omega)
    have hstep := OutputCallback_run w d hfree _ rfl
    simp only [Fill_count, hmin, Nat.lt_irrefl, ↓reduceIte, List.append_nil] at hstep
    obtain ⟨outs, w', hrun, hjoin, hlen, hfree', hset⟩ := ih
      { w with
        a := { w.a with
          out_buffer_ := (w.a.out_buffer_.Fill d.mData d.mDataByteSize).1
          out_mutex_ := false }
        trace := w.trace ++ [Event.uv_mutex_lock Side.output,
          Event.Fill Side.output d.mDataByteSize d.mDataByteSize,
          Event.uv_mutex_unlock Side.output] }
      rfl
      (by
        show _ ≤ (w.a.out_buffer_.Fill d.mData d.mDataByteSize).1.Size
        simp only [RingBuffer.Fill, RingBuffer.Size, hmin] at *
        omega)
    refine ⟨((w.a.out_buffer_.Fill d.mData d.mDataByteSize).2.1).take d.mDataByteSize :: outs,
      w', ?_, ?_, by simp [hlen], hfree', ?_⟩
    · simp only [renderAll, StateT.run, bind, StateT.bind, Except.bind] at hrun hstep ⊢
      rw [hstep]
      simp only [hrun]
      rfl
    · simp only [List.flatten_cons, hjoin, List.map_cons, List.sum_cons]
      have hc : (w.a.out_buffer_.Fill d.mData d.mDataByteSize).1.contents
          = w.a.out_buffer_.contents.drop d.mDataByteSize := by
        rw [Fill_contents, hmin]
      have hd : ((w.a.out_buffer_.Fill d.mData d.mDataByteSize).2.1).take d.mDataByteSize
          = w.a.out_buffer_.contents.take d.mDataByteSize := by
        rw [Fill_dest, hmin, List.take_append_of_le_length (by simp [contents_length]; omega),
          List.take_take, Nat.min_self]
      show ((w.a.out_buffer_.Fill d.mData d.mDataByteSize).2.1).take d.mDataByteSize ++
        ((w.a.out_buffer_.Fill d.mData d.mDataByteSize).1.contents).take _ = _
      rw [hc, hd, List.take_add]
    · intro off n hmem
      have := hset off n hmem
      simpa using this

/-! ## Lemmas: render destination, repeated start and stop -/

/-- What the render callback leaves in the destination: the drained bytes,
then zeroes up to the requested size, then the memory beyond the request. -/
theorem OutputCallback_dest (rb : RingBuffer) (dest : List Byte) (N : Nat) :
    (if (rb.Fill dest N).2.2 < N then
        memZero (rb.Fill dest N).2.1 (rb.Fill dest N).2.2 (N - (rb.Fill dest N).2.2)
      else (rb.Fill dest N).2.1)
      = rb.contents.take (min N rb.Size) ++ List.replicate (N - min N rb.Size) 0
          ++ dest.drop N := by
  have hle : min N rb.Size ≤ rb.contents.length := by
    rw [contents_length]; exact Nat.min_le_right _ _
  have htl : (rb.contents.take (min N rb.Size)).length = min N rb.Size := by
    rw [List.length_take]; omega
  rw [Fill_count, Fill_dest]
  split_ifs with hlt
  · simp only [memZero, memWrite, List.length_replicate]
    rw [List.take_append_of_le_length (by omega), List.take_take, Nat.min_self]
    have e : min N rb.Size + (N - min N rb.Size) = N := by omega
    rw [e, List.drop_append_eq_append_drop, htl, List.drop_drop,
      List.drop_eq_nil_of_le (by omega)]
    have e2 : min N rb.Size + (N - min N rb.Size) = N := by omega
    simp [e2]
  · have e : min N rb.Size = N := by omega
    simp [e]

theorem Stop_once_run (w : World) (h : 1 ≤ w.a.refs_) :
    (Audio.Stop 0 0).run w =
      .ok (JsValue.Null,
        { w with
          a := { w.a with
            in_running := false, out_running := false, in_async_ref := false,
            refs_ := w.a.refs_ - 1 }
          trace := w.trace ++ [Event.AudioOutputUnitStop Side.input 0,
            Event.AudioOutputUnitStop Side.output 0, Event.uv_unref, Event.Unref] }) := by
  rw [Stop_run, if_neg (by decide), if_neg (by decide), if_neg (by omega)]

theorem Stop_twice_run (w : World) (h : 2 ≤ w.a.refs_) :
    (Audio.Stop 0 0 >>= fun _ => Audio.Stop 0 0).run w =
      .ok (JsValue.Null,
        { w with
          a := { w.a with
            in_running := false, out_running := false, in_async_ref := false,
            refs_ := w.a.refs_ - 2 }
          trace := w.trace ++ [Event.AudioOutputUnitStop Side.input 0,
            Event.AudioOutputUnitStop Side.output 0, Event.uv_unref, Event.Unref,
            Event.AudioOutputUnitStop Side.input 0,
            Event.AudioOutputUnitStop Side.output 0, Event.uv_unref, Event.Unref] }) := by
  have h1 := Stop_once_run w (by omega)
  have h2 := Stop_once_run
    { w with
      a := { w.a with
        in_running := false, out_running := false, in_async_ref := false,
        refs_ := w.a.refs_ - 1 }
      trace := w.trace ++ [Event.AudioOutputUnitStop Side.input 0,
        Event.AudioOutputUnitStop Side.output 0, Event.uv_unref, Event.Unref] }
    (by show 1 ≤ w.a.refs_ - 1; omega)
  simp only [StateT.run, bind, StateT.bind, Except.bind] at h1 h2 ⊢
  rw [h1]
  simp only []
  rw [h2]
  simp [Nat.sub_sub]

theorem startedTwice_reached :
    ∃ w, (Audio.Start 0 0 >>= fun _ => Audio.Start 0 0).run World.opened
        = .ok (JsValue.Null, w) ∧ w.a = World.startedTwice.a := by
  have h1 := Start_run World.opened 0 0
  rw [if_neg (by decide), if_neg (by decide)] at h1
  have h2 := Start_run
    { World.opened with
      a := { World.opened.a with
        in_running := true, out_running := true, in_async_ref := true,
        refs_ := World.opened.a.refs_ + 1 }
      trace := World.opened.trace ++ [Event.AudioOutputUnitStart Side.input 0,
        Event.AudioOutputUnitStart Side.output 0, Event.uv_ref, Event.Ref] } 0 0
  rw [if_neg (by decide), if_neg (by decide)] at h2
  simp only [StateT.run, bind, StateT.bind, Except.bind] at h1 h2 ⊢
  rw [h1]
  simp only []
  rw [h2]
  exact ⟨_, rfl, rfl⟩

/-! ## The claims -/

/-! ## C1 -/

/-- C1, counterexample: on the freshly opened session (output buffer empty,
free capacity `100 * 1024`) `Enqueue` of a Buffer of `100 * 1024 + 1` bytes
returns `Null` with no exception, after calling `Produce` and moving the
write cursor past the capacity. -/
theorem enqueue_overflow_is_accepted :
    World.opened.a.out_buffer_.capacity - World.opened.a.out_buffer_.Size
        < (List.replicate (100 * 1024 + 1) (0 : Byte)).length ∧
      ∃ w', (Audio.Enqueue [JsValue.Buffer (List.replicate (100 * 1024 + 1) 0)]).run World.opened
          = .ok (JsValue.Null, w') ∧
        completion ((Audio.Enqueue
          [JsValue.Buffer (List.replicate (100 * 1024 + 1) 0)]).run World.opened)
          = Completion.returns JsValue.Null ∧
        Event.Produce Side.output (100 * 1024 + 1) ∈ w'.trace ∧
        w'.a.out_buffer_.Size = 100 * 1024 + 1 ∧
        w'.a.out_buffer_ ≠ World.opened.a.out_buffer_ := by
  have hlen : (List.replicate (100 * 1024 + 1) (0 : Byte)).length = 100 * 1024 + 1 :=
    List.length_replicate _ _
  refine ⟨?_, _, Enqueue_run World.opened _ [] rfl, ?_, ?_, ?_, ?_⟩
  · rw [hlen]; decide
  · rw [Enqueue_run World.opened _ [] rfl]; rfl
  · rw [hlen]; simp
  · show ((World.opened.a.out_buffer_.Produce _).1.store _ _).Size = _
    rw [Produce_store_Size _ _ (Nat.le_refl 0), hlen]; rfl
  · intro h
    have hW := congrArg RingBuffer.W h
    simp only [RingBuffer.store, RingBuffer.Produce, hlen] at hW
    exact absurd hW (by decide)

/-- C1, as amended: `Enqueue` makes no capacity check.  A call whose first
argument is a Buffer, whatever its length, locks `out_mutex_`, calls
`Produce(length)`, copies the bytes into the region, unlocks and returns
`Null` with no exception; a call whose first argument is missing or not a
Buffer throws and leaves the session object untouched. -/
theorem enqueue_rejects_only_non_buffer (w : World) (args : List JsValue)
    (hfree : w.a.out_mutex_ = false) :
    (∀ buff rest, args = JsValue.Buffer buff :: rest →
      (Audio.Enqueue args).run w =
        .ok (JsValue.Null,
          { w with
            a := { w.a with
              out_buffer_ := (w.a.out_buffer_.Produce buff.length).1.store
                (w.a.out_buffer_.Produce buff.length).2 buff
              out_mutex_ := false }
            trace := w.trace ++ [Event.uv_mutex_lock Side.output,
              Event.Produce Side.output buff.length, Event.memcpy buff.length,
              Event.uv_mutex_unlock Side.output] })) ∧
    ((∀ buff rest, args ≠ JsValue.Buffer buff :: rest) →
      (Audio.Enqueue args).run w =
        .ok (JsValue.Undefined,
          { w with
            exception := some "First argument should be a Buffer!"
            trace := w.trace ++
              [Event.ThrowException "First argument should be a Buffer!"] })) := by
  refine ⟨?_, fun h => Enqueue_reject w args h⟩
  intro buff rest hargs
  subst hargs
  exact Enqueue_run w buff rest hfree

/-- C1, witness: two bytes enqueued on the small session, whose output
buffer holds `[1, 2, 3]`. -/
theorem enqueue_rejects_only_non_buffer_witness :
    World.small.a.out_mutex_ = false ∧
    ∃ w', (Audio.Enqueue [JsValue.Buffer [4, 5]]).run World.small = .ok (JsValue.Null, w') ∧
      w'.a.out_buffer_.contents = [1, 2, 3, 4, 5] ∧ w'.exception = none :=
  ⟨rfl, _,
    (enqueue_rejects_only_non_buffer World.small [JsValue.Buffer [4, 5]] rfl).1 [4, 5] [] rfl,
    by decide, rfl⟩

/-! ## C2 -/

/-- C2: underrun silence in `Audio::OutputCallback`.  For every session with
`out_mutex_` free and every destination descriptor whose requested size `N`
fits its memory, the callback returns `noErr`; with `w` the count returned by
`Fill`, `w <= N`, the destination keeps its length, its first `w` bytes are the
first `w` bytes of the occupied region (which the ring buffer no longer
holds afterwards), every byte at an index from `w` up to `N` is zero, and on
an empty buffer all `N` bytes are zero. -/
theorem outputCallback_underrun_silence (w : World) (data : AudioBuffer)
    (hfree : w.a.out_mutex_ = false) (hsize : data.mDataByteSize ≤ data.mData.length) :
    ∃ out w', (Audio.OutputCallback data).run w = .ok ((0, out), w') ∧
      (w.a.out_buffer_.Fill data.mData data.mDataByteSize).2.2 ≤ data.mDataByteSize ∧
      (w.a.out_buffer_.Fill data.mData data.mDataByteSize).2.2 ≤ w.a.out_buffer_.Size ∧
      out.mDataByteSize = data.mDataByteSize ∧
      out.mData.length = data.mData.length ∧
      out.mData.take (w.a.out_buffer_.Fill data.mData data.mDataByteSize).2.2
        = w.a.out_buffer_.contents.take
            (w.a.out_buffer_.Fill data.mData data.mDataByteSize).2.2 ∧
      w'.a.out_buffer_.contents = w.a.out_buffer_.contents.drop
            (w.a.out_buffer_.Fill data.mData data.mDataByteSize).2.2 ∧
      (∀ i, (w.a.out_buffer_.Fill data.mData data.mDataByteSize).2.2 ≤ i →
        i < data.mDataByteSize → out.mData[i]? = some 0) ∧
      (w.a.out_buffer_.Size = 0 →
        out.mData.take data.mDataByteSize = List.replicate data.mDataByteSize 0) ∧
      w'.a.out_mutex_ = false := by
  have hrun := OutputCallback_run w data hfree _ rfl
  rw [OutputCallback_dest] at hrun
  have hle : min data.mDataByteSize w.a.out_buffer_.Size ≤ w.a.out_buffer_.contents.length := by
    rw [contents_length]; exact Nat.min_le_right _ _
  have htl : (w.a.out_buffer_.contents.take
      (min data.mDataByteSize w.a.out_buffer_.Size)).length
        = min data.mDataByteSize w.a.out_buffer_.Size := by
    rw [List.length_take]; omega
  refine ⟨_, _, hrun, ?_, ?_, rfl, ?_, ?_, ?_, ?_, ?_, rfl⟩
  · rw [Fill_count]; exact Nat.min_le_left _ _
  · rw [Fill_count]; exact Nat.min_le_right _ _
  · simp only [List.length_append, htl, List.length_replicate, List.length_drop]
    omega
  · rw [Fill_count, List.append_assoc, List.take_append_of_le_length (by omega),
      List.take_take, Nat.min_self]
  · show (w.a.out_buffer_.Fill data.mData data.mDataByteSize).1.contents = _
    rw [Fill_contents, Fill_count]
  · intro i hi hiN
    rw [Fill_count] at hi
    show (_ ++ _ ++ _)[i]? = _
    rw [List.append_assoc, List.getElem?_append_right (by omega), htl,
      List.getElem?_append_left (by simp; omega)]
    simp [List.getElem?_replicate]
    omega
  · intro hempty
    show List.take _ (_ ++ _ ++ _) = _
    simp [hempty]

/-- C2, witness: a request of 5 bytes against the small session's output
buffer, which holds `[1, 2, 3]` across the wrap boundary. -/
theorem outputCallback_underrun_silence_witness :
    World.small.a.out_mutex_ = false ∧
    (5 : Nat) ≤ [9, 9, 9, 9, 9, 9].length ∧
    ∃ out w', (Audio.OutputCallback { mData := [9, 9, 9, 9, 9, 9], mDataByteSize := 5 }).run
        World.small = .ok ((0, out), w') ∧
      out.mData.take 3 = [1, 2, 3] ∧ out.mData[3]? = some 0 ∧ out.mData[4]? = some 0 := by
  refine ⟨rfl, by decide, ?_⟩
  obtain ⟨out, w', hrun, -, -, -, -, htake, -, hzero, -, -⟩ :=
    outputCallback_underrun_silence World.small
      { mData := [9, 9, 9, 9, 9, 9], mDataByteSize := 5 } rfl (by decide)
  have e : (World.small.a.out_buffer_.Fill [9, 9, 9, 9, 9, 9] 5).2.2 = 3 := by decide
  have c : World.small.a.out_buffer_.contents = [1, 2, 3] := by decide
  simp only [e, c] at htake hzero
  exact ⟨out, w', hrun, htake, hzero 3 (by decide) (by decide), hzero 4 (by decide) (by decide)⟩

/-! ## C3 -/

/-- C3: output round trip.  Starting from a session whose output ring buffer
is empty (and well formed, its mutex free), for every sequence `bs` of byte
buffers whose total length is within the capacity and every sequence `ds` of
render requests whose sizes sum to at most that total: every `Enqueue`
returns `Null` without an exception, every render callback returns, and the
bytes found in the destinations, concatenated in callback order, are the
prefix of `b1 ++ ... ++ bk` of that length; no callback pads with zeroes. -/
theorem enqueue_render_round_trip (w : World) (bs : List (List Byte)) (ds : List AudioBuffer)
    (hfree : w.a.out_mutex_ = false) (hwf : w.a.out_buffer_.WF)
    (hempty : w.a.out_buffer_.Size = 0)
    (hcap : bs.flatten.length ≤ w.a.out_buffer_.capacity)
    (hsum : (ds.map AudioBuffer.mDataByteSize).sum ≤ bs.flatten.length) :
    ∃ w1 outs w2,
      (enqueueAll bs).run w = .ok (List.replicate bs.length JsValue.Null, w1) ∧
      w1.exception = w.exception ∧
      (renderAll ds).run w1 = .ok (outs, w2) ∧
      outs.length = ds.length ∧
      outs.flatten = bs.flatten.take (ds.map AudioBuffer.mDataByteSize).sum ∧
      (∀ off n, Event.memset off n ∈ w2.trace → Event.memset off n ∈ w1.trace) := by
  obtain ⟨w1, hrun1, hfree1, -, hcont1, hexc1⟩ :=
    enqueueAll_run bs w hfree hwf (by omega)
  have hnil : w.a.out_buffer_.contents = [] :=
    List.eq_nil_of_length_eq_zero (by rw [contents_length, hempty])
  rw [hnil, List.nil_append] at hcont1
  have hsize1 : w1.a.out_buffer_.Size = bs.flatten.length := by
    rw [← contents_length, hcont1]
  obtain ⟨outs, w2, hrun2, hjoin, hlen, -, hset⟩ :=
    renderAll_run ds w1 hfree1 (by omega)
  exact ⟨w1, outs, w2, hrun1, hexc1, hrun2, hlen, by rw [hjoin, hcont1], hset⟩

/-- C3, witness: `[1, 2]` and `[3, 4, 5]` enqueued on the small session with
its output buffer empty (cursors at 9 of capacity 8, so the data wraps), then
drained by requests of 1 and 3 bytes. -/
theorem enqueue_render_round_trip_witness :
    World.smallEmpty.a.out_mutex_ = false ∧ World.smallEmpty.a.out_buffer_.WF ∧
    World.smallEmpty.a.out_buffer_.Size = 0 ∧
    ([[1, 2], [3, 4, 5]] : List (List Byte)).flatten.length
      ≤ World.smallEmpty.a.out_buffer_.capacity ∧
    ∃ w1 outs w2,
      (enqueueAll [[1, 2], [3, 4, 5]]).run World.smallEmpty
        = .ok ([JsValue.Null, JsValue.Null], w1) ∧
      (renderAll [{ mData := [9], mDataByteSize := 1 },
          { mData := [9, 9, 9], mDataByteSize := 3 }]).run w1 = .ok (outs, w2) ∧
      outs.flatten = [1, 2, 3, 4] := by
  refine ⟨rfl, by decide, by decide, by decide, ?_⟩
  obtain ⟨w1, outs, w2, h1, -, h2, -, h3, -⟩ :=
    enqueue_render_round_trip World.smallEmpty [[1, 2], [3, 4, 5]]
      [{ mData := [9], mDataByteSize := 1 }, { mData := [9, 9, 9], mDataByteSize := 3 }]
      rfl (by decide) (by decide) (by decide) (by decide)
  exact ⟨w1, outs, w2, h1, h2, h3⟩

/-! ## C4 -/

/-- C4: capture delivery in `Audio::InputAsyncCallback`.  With `in_mutex_`
free the callback returns; when the input buffer holds `s > 0` bytes,
`ondata` is invoked exactly once, with one block equal to the whole occupied
region in order (`s` bytes), the input buffer is empty afterwards and the
mutex is free again; when `s = 0` no `ondata` call is made. -/
theorem inputAsyncCallback_delivers_region (w : World) (hfree : w.a.in_mutex_ = false) :
    ∃ w', Audio.InputAsyncCallback.run w = .ok ((), w') ∧
      (0 < w.a.in_buffer_.Size →
        deliveries w'.trace = deliveries w.trace ++ [w.a.in_buffer_.contents] ∧
        w.a.in_buffer_.contents.length = w.a.in_buffer_.Size ∧
        w'.a.in_buffer_.Size = 0 ∧
        w'.a.in_mutex_ = false) ∧
      (w.a.in_buffer_.Size = 0 → deliveries w'.trace = deliveries w.trace) := by
  have hrun := InputAsyncCallback_run w hfree
  by_cases hs : w.a.in_buffer_.Size = 0
  · rw [if_pos hs] at hrun
    refine ⟨_, hrun, fun h => absurd hs (by omega), fun _ => ?_⟩
    simp [deliveries_append, deliveries]
  · rw [if_neg hs] at hrun
    refine ⟨_, hrun, fun _ => ⟨?_, contents_length _,
      Flush_Size w.a.in_buffer_ (List.replicate w.a.in_buffer_.Size 0), rfl⟩,
      fun h => absurd h hs⟩
    simp [deliveries_append, deliveries, Flush_block]

/-- C4, witness: the small session, whose input buffer holds `[7, 8]`. -/
theorem inputAsyncCallback_delivers_region_witness :
    World.small.a.in_mutex_ = false ∧
    ∃ w', Audio.InputAsyncCallback.run World.small = .ok ((), w') ∧
      deliveries w'.trace = [[7, 8]] ∧ w'.a.in_buffer_.Size = 0 := by
  refine ⟨rfl, ?_⟩
  obtain ⟨w', hrun, hpos, -⟩ := inputAsyncCallback_delivers_region World.small rfl
  obtain ⟨hd, -, hz, -⟩ := hpos (by decide)
  exact ⟨w', hrun, hd, hz⟩

/-! ## C5 -/

/-- C5, counterexample: on the opened, stopped session the capture unit
starts and the render unit refuses.  `Start` throws, no `AudioOutputUnitStop`
call is made, and the capture unit is left running. -/
theorem start_failure_leaves_capture_running :
    World.opened.a.in_running = false ∧ World.opened.a.out_running = false ∧
    ∃ w', (Audio.Start 0 (-50)).run World.opened = .ok (JsValue.Undefined, w') ∧
      completion ((Audio.Start 0 (-50)).run World.opened)
        = Completion.throws "Failed to start unit!" ∧
      w'.trace = [Event.AudioOutputUnitStart Side.input 0,
        Event.AudioOutputUnitStart Side.output (-50),
        Event.ThrowException "Failed to start unit!"] ∧
      w'.a.in_running = true := by
  refine ⟨rfl, rfl, _, Start_run World.opened 0 (-50), ?_, rfl, rfl⟩
  rw [Start_run]
  rfl

/-- C5, as amended: `Start` never stops a unit.  If the capture unit refuses
to start, `Start` throws with the session object as it was.  If the capture
unit starts and the render unit refuses, `Start` throws with the capture unit
left running; the notifier is not referenced and `refs_` is not incremented.
In both cases the only outside calls are the start calls and the throw. -/
theorem start_error_without_rollback (w : World) (st_in st_out : OSStatus)
    (herr : st_in ≠ 0 ∨ st_out ≠ 0) :
    ∃ w', (Audio.Start st_in st_out).run w = .ok (JsValue.Undefined, w') ∧
      w'.exception = some "Failed to start unit!" ∧
      (st_in ≠ 0 → w'.a = w.a ∧
        w'.trace = w.trace ++ [Event.AudioOutputUnitStart Side.input st_in,
          Event.ThrowException "Failed to start unit!"]) ∧
      (st_in = 0 → w'.a = { w.a with in_running := true } ∧
        w'.trace = w.trace ++ [Event.AudioOutputUnitStart Side.input st_in,
          Event.AudioOutputUnitStart Side.output st_out,
          Event.ThrowException "Failed to start unit!"]) := by
  have hrun := Start_run w st_in st_out
  by_cases h1 : st_in = 0
  · have h2 : st_out ≠ 0 := by
      rcases herr with h | h
      · exact absurd h1 h
      · exact h
    rw [if_neg (not_not.2 h1), if_pos h2] at hrun
    exact ⟨_, hrun, rfl, fun h => absurd h1 h, fun _ => ⟨rfl, rfl⟩⟩
  · rw [if_pos h1] at hrun
    exact ⟨_, hrun, rfl, fun _ => ⟨rfl, rfl⟩, fun h => absurd h h1⟩

/-- C5, witness: the capture unit starts, the render unit answers `-50`. -/
theorem start_error_without_rollback_witness :
    ((0 : OSStatus) ≠ 0 ∨ (-50 : OSStatus) ≠ 0) ∧
    ∃ w', (Audio.Start 0 (-50)).run World.small = .ok (JsValue.Undefined, w') ∧
      w'.exception = some "Failed to start unit!" ∧
      w'.a = { World.small.a with in_running := true } := by
  refine ⟨Or.inr (by decide), ?_⟩
  obtain ⟨w', hrun, hexc, -, h0⟩ :=
    start_error_without_rollback World.small 0 (-50) (Or.inr (by decide))
  exact ⟨w', hrun, hexc, (h0 rfl).1⟩

/-! ## C6 -/

/-- C6, counterexample: after two successful `Start` calls (`refs_ = 2`) one
`Stop` leaves `refs_ = 1`, two `Stop` calls in a row leave `refs_ = 0`: the
keep-alive reference count after two calls differs from the count after
one. -/
theorem stop_twice_differs_from_once :
    ∃ w1 w2, (Audio.Stop 0 0).run World.startedTwice = .ok (JsValue.Null, w1) ∧
      (Audio.Stop 0 0 >>= fun _ => Audio.Stop 0 0).run World.startedTwice
        = .ok (JsValue.Null, w2) ∧
      w1.a.refs_ = 1 ∧ w2.a.refs_ = 0 ∧ w1.a ≠ w2.a := by
  refine ⟨_, _, Stop_once_run World.startedTwice (by decide),
    Stop_twice_run World.startedTwice (by decide), rfl, rfl, ?_⟩
  intro h
  exact absurd (congrArg Audio.refs_ h) (by decide)

/-- C6, as amended: `Stop` has no guard for a session that is already
stopped.  With both hardware stop calls succeeding and a keep-alive count of
at least 2, one `Stop` and two `Stop` calls in a row both return `Null` and
leave both units stopped and the notifier unreferenced, but every call
decrements `refs_`: it is one lower after two calls than after one. -/
theorem stop_twice_decrements_twice (w : World) (h : 2 ≤ w.a.refs_) :
    ∃ w1 w2, (Audio.Stop 0 0).run w = .ok (JsValue.Null, w1) ∧
      (Audio.Stop 0 0 >>= fun _ => Audio.Stop 0 0).run w = .ok (JsValue.Null, w2) ∧
      w1.a.in_running = false ∧ w1.a.out_running = false ∧ w1.a.in_async_ref = false ∧
      w2.a.in_running = w1.a.in_running ∧ w2.a.out_running = w1.a.out_running ∧
      w2.a.in_async_ref = w1.a.in_async_ref ∧
      w1.a.refs_ = w.a.refs_ - 1 ∧ w2.a.refs_ = w.a.refs_ - 2 ∧ w2.a.refs_ + 1 = w1.a.refs_ ∧
      w1.exception = w.exception ∧ w2.exception = w.exception :=
  ⟨_, _, Stop_once_run w (by omega), Stop_twice_run w h, rfl, rfl, rfl, rfl, rfl, rfl, rfl, rfl,
    by show w.a.refs_ - 2 + 1 = w.a.refs_ - 1; omega, rfl, rfl⟩

/-- C6, witness: the small session, whose keep-alive count is 2. -/
theorem stop_twice_decrements_twice_witness :
    2 ≤ World.small.a.refs_ ∧
    ∃ w1 w2, (Audio.Stop 0 0).run World.small = .ok (JsValue.Null, w1) ∧
      (Audio.Stop 0 0 >>= fun _ => Audio.Stop 0 0).run World.small = .ok (JsValue.Null, w2) ∧
      w1.a.refs_ = 1 ∧ w2.a.refs_ = 0 := by
  refine ⟨by decide, ?_⟩
  obtain ⟨w1, w2, h1, h2, -, -, -, -, -, -, r1, r2, -⟩ :=
    stop_twice_decrements_twice World.small (by decide)
  exact ⟨w1, w2, h1, h2, r1, r2⟩

/-! ## C7 -/

/-- C7: construction failure.  If component discovery fails or any checked
set-up call is rejected, for the capture or for the render unit, then
`Audio::New` never delivers a session object to its caller: the call ends in
a thrown exception, or the process is aborted because libuv or the allocator
failed as well.  When libuv and the allocator succeed the call returns with
an exception scheduled, so the caller sees the exception and not the object,
whose unit handle is `NULL` on the side that was rejected. -/
theorem construction_failure_throws (hw : CoreAudio) (rt : Runtime)
    (hrej : hw.rejects true ∨ hw.rejects false) :
    (∀ v, completion ((Audio.New hw rt).run World.fresh) ≠ Completion.returns v) ∧
    (rt.uv_async_init = 0 → rt.uv_mutex_init_in = 0 → rt.uv_mutex_init_out = 0 →
      rt.calloc_ok = true →
      ∃ msg w', (Audio.New hw rt).run World.fresh = .ok (JsValue.This, w') ∧
        w'.exception = some msg ∧
        completion ((Audio.New hw rt).run World.fresh) = Completion.throws msg ∧
        (hw.rejects true → w'.a.in_unit_ = none) ∧
        (hw.rejects false → w'.a.out_unit_ = none)) := by
  obtain ⟨r1, w1, e1, p1, q1, -, -⟩ := CreateAudioUnit_run hw true World.fresh
  obtain ⟨r2, w2, e2, p2, q2, s2, f2⟩ :=
    CreateAudioUnit_run hw false { w1 with a := { w1.a with in_unit_ := r1 } }
  have hexc : w2.exception.isSome = true := by
    rcases hrej with h | h
    · exact s2 (p1 h).2
    · exact (p2 h).2
  obtain ⟨msg, hmsg⟩ := Option.isSome_iff_exists.1 hexc
  have hrun := New_run hw rt World.fresh
  rw [ctor_unfold, e1] at hrun
  simp only [e2] at hrun
  constructor
  · intro v
    rw [hrun]
    split_ifs
    · simp [completion]
    · simp [completion, hmsg]
  · intro c1 c2 c3 c4
    rw [if_neg (by simp [c1, c2, c3, c4])] at hrun
    refine ⟨msg, _, hrun, hmsg, ?_, ?_, ?_⟩
    · rw [hrun]
      simp [completion, hmsg]
    · intro h
      show w2.a.in_unit_ = none
      rw [f2]
      exact (p1 h).1
    · intro h
      exact (p2 h).1

/-- C7, witness: the render unit refuses to initialise while everything else
succeeds. -/
theorem construction_failure_throws_witness :
    (CoreAudio.renderFails.rejects true ∨ CoreAudio.renderFails.rejects false) ∧
    ∃ msg w', (Audio.New CoreAudio.renderFails Runtime.ready).run World.fresh
        = .ok (JsValue.This, w') ∧
      completion ((Audio.New CoreAudio.renderFails Runtime.ready).run World.fresh)
        = Completion.throws msg ∧
      w'.a.out_unit_ = none := by
  have hrej : CoreAudio.renderFails.rejects false :=
    Or.inr ⟨SetupCall.Initialize, by decide, by decide⟩
  refine ⟨Or.inr hrej, ?_⟩
  obtain ⟨msg, w', hrun, -, hcomp, -, hout⟩ :=
    (construction_failure_throws CoreAudio.renderFails Runtime.ready (Or.inr hrej)).2
      rfl rfl rfl rfl
  exact ⟨msg, w', hrun, hcomp, hout hrej⟩

/-! ## C8 -/

/-- C8, the code at the failing input: `InputAsyncCallback` on the opened
session, whose input buffer is empty, returns right after taking `in_mutex_`;
the mutex is still held on return, and the next capture callback waits on it
forever. -/
theorem inputAsyncCallback_empty_keeps_mutex :
    World.opened.a.in_mutex_ = false ∧ World.opened.a.out_mutex_ = false ∧
    ∃ w', Audio.InputAsyncCallback.run World.opened = .ok ((), w') ∧
      w'.trace = [Event.uv_mutex_lock Side.input] ∧
      w'.a.in_mutex_ = true ∧
      (Audio.InputCallback 256 0 []).run w' = .error Halt.blocked := by
  have hrun := InputAsyncCallback_run World.opened rfl
  rw [if_pos (by rfl)] at hrun
  refine ⟨rfl, rfl, _, hrun, rfl, rfl, ?_⟩
  simp [Audio.InputCallback, uv_mutex_lock, Audio.held, StateT.run, bind, StateT.bind,
    Except.bind]

/-! ## C9 -/

/-- C9, counterexample: one capture callback of 256 frames on the opened
session.  The hardware render happens after the lock and before the unlock:
`in_mutex_` is held across `AudioUnitRender`. -/
theorem inputCallback_renders_under_lock :
    ∃ w', (Audio.InputCallback 256 0 []).run World.opened = .ok (0, w') ∧
      w'.trace = [Event.uv_mutex_lock Side.input, Event.Produce Side.input 1024,
        Event.AudioUnitRender 256 0, Event.uv_async_send,
        Event.uv_mutex_unlock Side.input] := by
  have hrun := InputCallback_run World.opened 256 0 [] rfl
  rw [if_neg (by decide)] at hrun
  exact ⟨_, hrun, rfl⟩

/-- C9, as amended: an execution of `InputCallback` (entered with
`in_mutex_` free) in which the hardware render fails never returns; in every
execution that returns the mutex is taken first and released last, and
`Produce`, the hardware render and the wake-up of the consumer all happen
while it is held, in this order. -/
theorem inputCallback_critical_section (w : World) (frame_count : Nat) (st : OSStatus)
    (samples : List Byte) (hfree : w.a.in_mutex_ = false) :
    (st ≠ 0 → (Audio.InputCallback frame_count st samples).run w = .error Halt.aborted) ∧
    (st = 0 →
      ∃ n w', (Audio.InputCallback frame_count st samples).run w = .ok (0, w') ∧
        w'.trace = w.trace ++ [Event.uv_mutex_lock Side.input, Event.Produce Side.input n,
          Event.AudioUnitRender frame_count st, Event.uv_async_send,
          Event.uv_mutex_unlock Side.input] ∧
        w'.a.in_mutex_ = false) := by
  have hrun := InputCallback_run w frame_count st samples hfree
  constructor
  · intro hst
    rw [if_pos hst] at hrun
    exact hrun
  · intro hst
    rw [if_neg (not_not.2 hst)] at hrun
    exact ⟨_, _, hrun, rfl, rfl⟩

/-- C9, witness: one frame of four bytes captured on the small session. -/
theorem inputCallback_critical_section_witness :
    World.small.a.in_mutex_ = false ∧
    ∃ n w', (Audio.InputCallback 1 0 [5, 6, 7, 8]).run World.small = .ok (0, w') ∧
      w'.trace = World.small.trace ++ [Event.uv_mutex_lock Side.input,
        Event.Produce Side.input n, Event.AudioUnitRender 1 0, Event.uv_async_send,
        Event.uv_mutex_unlock Side.input] ∧
      w'.a.in_mutex_ = false :=
  ⟨rfl, (inputCallback_critical_section World.small 1 0 [5, 6, 7, 8] rfl).2 rfl⟩

/-! ## C10 -/

/-- C10, counterexample: `2 ^ 30` frames of 4 bytes on the opened session.
The product is `2 ^ 32`, the callback reserves 0 bytes and records
`mDataByteSize = 0`. -/
theorem inputCallback_size_wraps :
    1073741824 < 2 ^ 32 ∧ World.opened.a.desc_.mBytesPerFrame = 4 ∧
    ∃ w', (Audio.InputCallback 1073741824 0 []).run World.opened = .ok (0, w') ∧
      Event.Produce Side.input 0 ∈ w'.trace ∧
      w'.a.blist_.mDataByteSize = 0 ∧
      w'.a.blist_.mDataByteSize ≠ 1073741824 * World.opened.a.desc_.mBytesPerFrame := by
  have hrun := InputCallback_run World.opened 1073741824 0 [] rfl
  rw [if_neg (by decide)] at hrun
  have hsz : (1073741824 * World.opened.a.desc_.mBytesPerFrame) % 2 ^ 32 = 0 := by decide
  rw [hsz] at hrun
  refine ⟨by decide, rfl, _, hrun, by simp, rfl, ?_⟩
  show (0 : Nat) ≠ 1073741824 * 4
  decide

/-- C10, as amended: the byte size `InputCallback` reserves with `Produce`
and records as `mDataByteSize` is the product of the frame count and the
bytes per frame reduced modulo `2 ^ 32` (the product is formed in `UInt32`);
it is the mathematical product whenever that product is below `2 ^ 32`. -/
theorem inputCallback_size_mod (w : World) (frame_count : Nat) (samples : List Byte)
    (hfree : w.a.in_mutex_ = false) :
    ∃ w', (Audio.InputCallback frame_count 0 samples).run w = .ok (0, w') ∧
      w'.a.blist_.mDataByteSize = (frame_count * w.a.desc_.mBytesPerFrame) % 2 ^ 32 ∧
      w'.a.in_buffer_.W
        = w.a.in_buffer_.W + (frame_count * w.a.desc_.mBytesPerFrame) % 2 ^ 32 ∧
      Event.Produce Side.input ((frame_count * w.a.desc_.mBytesPerFrame) % 2 ^ 32)
        ∈ w'.trace ∧
      (frame_count * w.a.desc_.mBytesPerFrame < 2 ^ 32 →
        w'.a.blist_.mDataByteSize = frame_count * w.a.desc_.mBytesPerFrame) := by
  have hrun := InputCallback_run w frame_count 0 samples hfree
  rw [if_neg (by decide)] at hrun
  refine ⟨_, hrun, rfl, rfl, by simp, fun h => ?_⟩
  exact Nat.mod_eq_of_lt h

/-- C10, witness: one frame of four bytes on the small session. -/
theorem inputCallback_size_mod_witness :
    World.small.a.in_mutex_ = false ∧
    ∃ w', (Audio.InputCallback 1 0 [5, 6, 7, 8]).run World.small = .ok (0, w') ∧
      w'.a.blist_.mDataByteSize = 4 ∧ w'.a.in_buffer_.W = 6 := by
  refine ⟨rfl, ?_⟩
  obtain ⟨w', hrun, hsize, hW, -, -⟩ :=
    inputCallback_size_mod World.small 1 [5, 6, 7, 8] rfl
  exact ⟨w', hrun, hsize, hW⟩
